import Mathlib

/-!
Verification development for the theseus excerpt: the Baspacho sparse linear
solver (theseus/optimizer/linear/baspacho_sparse_solver.py), the URDF
kinematics model (theseus/embodied/kinematics/kinematics_model.py) and the
class-based Lie tensor layer exercised by tests/labs/lie/test_lie_tensor.py.
Python float tensors are embedded as lists of rationals; fallible Python code
is embedded as functions into Except.
-/

namespace Theseus

/-- CSR sparsity structure of the Jacobian, the data of the
SparseStructure object returned by linearization.structure(): row
pointers, column indices and the matrix dimensions. -/
structure SparseStructure where
  rowPtr : List Nat
  colInd : List Nat
  numRows : Nat
  numCols : Nat
deriving DecidableEq

/-- The fields of the SparseLinearization object consumed by
BaspachoSparseSolver: the CSR structure of the Jacobian, the starting
column of each variable block, the tangent width of each variable, and
the numeric payload (A_val, b). -/
structure SparseLin where
  rowPtr : List Nat
  colInd : List Nat
  numRows : Nat
  numCols : Nat
  varStartCols : List Nat
  varDims : List Nat
  A_val : List ℚ
  b : List ℚ
deriving DecidableEq

/-- The SparseStructure view of a linearization (linearization.structure()). -/
def SparseLin.struct (l : SparseLin) : SparseStructure :=
  ⟨l.rowPtr, l.colInd, l.numRows, l.numCols⟩

/-- Column indices stored for row r of a CSR structure: the slice of
col_ind between row_ptr r and row_ptr (r+1). -/
def rowCols (s : SparseStructure) (r : Nat) : List Nat :=
  (s.colInd.take (s.rowPtr.getD (r + 1) 0)).drop (s.rowPtr.getD r 0)

/-- Modelled from the spec: SparseStructure.mock_csc_transpose is outside the
excerpt; per the spec it is the structure-only transpose pattern of the full
Jacobian with every stored value equal to 1.  This is its (c, r) entry. -/
def mockAtEntry (s : SparseStructure) (c r : Nat) : Nat :=
  if c ∈ rowCols s r then 1 else 0

/-- Entry (i, c) of the block-indicator CSR matrix to_blocks built in
BaspachoSparseSolver.reset: data is all ones, indices is arange(num_cols)
and indptr is var_start_cols followed by num_cols, so row i holds a one in
every column c of the half-open range given by consecutive pointers. -/
def toBlocksEntry (varStartCols : List Nat) (numCols : Nat) (i c : Nat) : Nat :=
  let ptr := varStartCols ++ [numCols]
  if ptr.getD i 0 ≤ c ∧ c < ptr.getD (i + 1) 0 then 1 else 0

/-- Sum of f over 0, 1, ..., n-1; the scalar product underlying the sparse
matrix products in reset. -/
def lsum (n : Nat) (f : Nat → Nat) : Nat := ((List.range n).map f).sum

/-- Entry (i, r) of block_At_mock = to_blocks @ At_mock. -/
def blockAtEntry (l : SparseLin) (i r : Nat) : Nat :=
  lsum l.numCols
    (fun c => toBlocksEntry l.varStartCols l.numCols i c * mockAtEntry l.struct c r)

/-- Entry (i, j) of block_AtA_mock = block_At_mock @ block_At_mock.T. -/
def blockAtAEntry (l : SparseLin) (i j : Nat) : Nat :=
  lsum l.numRows (fun r => blockAtEntry l i r * blockAtEntry l j r)

/-- Sorted, deduplicated column indices of row i of the block AtA pattern,
as produced by tocsr() followed by sort_indices(): exactly the block columns
whose product entry is non-zero. -/
def blockAtARow (l : SparseLin) (i : Nat) : List Nat :=
  (List.range l.varStartCols.length).filter (fun j => decide (blockAtAEntry l i j ≠ 0))

/-- Variable blocks i and j co-occur in residual row r of the Jacobian:
each of the two blocks contains a column with a stored entry in row r. -/
def blocksCooccurIn (l : SparseLin) (i j r : Nat) : Prop :=
  (∃ c, c < l.numCols ∧ toBlocksEntry l.varStartCols l.numCols i c ≠ 0 ∧
      c ∈ rowCols l.struct r) ∧
  (∃ c, c < l.numCols ∧ toBlocksEntry l.varStartCols l.numCols j c ≠ 0 ∧
      c ∈ rowCols l.struct r)

lemma lsum_succ (n : Nat) (f : Nat → Nat) : lsum (n + 1) f = lsum n f + f n := by
  simp [lsum, List.range_succ]

lemma lsum_ne_zero (n : Nat) (f : Nat → Nat) :
    lsum n f ≠ 0 ↔ ∃ k, k < n ∧ f k ≠ 0 := by
  induction n with
  | zero => simp [lsum]
  | succ m ih =>
    rw [lsum_succ]
    have hs : lsum m f + f m ≠ 0 ↔ lsum m f ≠ 0 ∨ f m ≠ 0 := by omega
    rw [hs, ih]
    constructor
    · rintro (⟨k, hk, hf⟩ | hm)
      · exact ⟨k, Nat.lt_succ_of_lt hk, hf⟩
      · exact ⟨m, Nat.lt_succ_self m, hm⟩
    · rintro ⟨k, hk, hf⟩
      rcases Nat.lt_succ_iff_lt_or_eq.mp hk with h | h
      · exact .inl ⟨k, h, hf⟩
      · exact .inr (h ▸ hf)

lemma mockAtEntry_ne (s : SparseStructure) (c r : Nat) :
    mockAtEntry s c r ≠ 0 ↔ c ∈ rowCols s r := by
  unfold mockAtEntry
  split <;> simp_all

lemma blockAtEntry_ne (l : SparseLin) (i r : Nat) :
    blockAtEntry l i r ≠ 0 ↔
      ∃ c, c < l.numCols ∧ toBlocksEntry l.varStartCols l.numCols i c ≠ 0 ∧
        c ∈ rowCols l.struct r := by
  unfold blockAtEntry
  rw [lsum_ne_zero]
  constructor
  · rintro ⟨c, hc, hne⟩
    rcases mul_ne_zero_iff.mp hne with ⟨h1, h2⟩
    exact ⟨c, hc, h1, (mockAtEntry_ne _ _ _).mp h2⟩
  · rintro ⟨c, hc, h1, h2⟩
    exact ⟨c, hc, mul_ne_zero h1 ((mockAtEntry_ne _ _ _).mpr h2)⟩

/-- C1: the AtA block pattern computed by BaspachoSparseSolver.reset (mock
transpose of the Jacobian with unit values, collapse of fine columns into
per-variable blocks by the block-indicator CSR multiply, the product
block_At times its transpose, sorted and deduplicated indices) contains a
non-zero block (i, j) if and only if variable blocks i and j co-occur in at
least one residual row of the Jacobian; the per-row index list is strictly
sorted, hence deduplicated. -/
theorem C1_blockAtA_pattern (l : SparseLin) (i j : Nat) :
    (j ∈ blockAtARow l i ↔
      j < l.varStartCols.length ∧ ∃ r, r < l.numRows ∧ blocksCooccurIn l i j r) ∧
    (blockAtARow l i).Pairwise (· < ·) := by
  constructor
  · unfold blockAtARow blocksCooccurIn
    rw [List.mem_filter, List.mem_range]
    simp only [decide_eq_true_eq]
    apply and_congr_right
    intro _
    unfold blockAtAEntry
    rw [lsum_ne_zero]
    apply exists_congr
    intro r
    apply and_congr_right
    intro _
    rw [mul_ne_zero_iff, blockAtEntry_ne, blockAtEntry_ne]
  · exact List.Pairwise.filter _ (List.pairwise_lt_range _)

/-- Failure kinds surfaced by the solver.  The Python code raises RuntimeError
for the first two (the spec taxonomy names them DeviceUnavailableError and
BackendUnavailableError); the constructor carries the raised message.  An
AttributeError arises when a missing attribute of self is touched.  The
staleStructure kind is the StaleStructureError named by the spec; the code
never raises it. -/
inductive SolverError where
  | deviceUnavailable (msg : String)
  | backendUnavailable (msg : String)
  | attributeError (msg : String)
  | runtimeError (msg : String)
  | staleStructure
deriving DecidableEq

/-- Whether the C++ extension theseus.extlib.baspacho_solver imports, and if
not, the type name and text of the exception the import raises. -/
inductive ExtlibStatus where
  | loadable
  | importError (excType : String) (excText : String)
deriving DecidableEq

/-- Host facts consulted by reset: torch.cuda.is_available() and the
importability of the C++ extension. -/
structure Host where
  cudaAvailable : Bool
  extlib : ExtlibStatus
deriving DecidableEq

/-- Message of the RuntimeError raised by reset when cuda is requested but
unavailable. -/
def cudaUnavailableMsg : String :=
  "Cuda not available, BaspachoSparseSolver cannot be used"

/-- Message of the RuntimeError raised by reset when the extension fails to
import: a fixed installation notice followed by the exception type name, a
colon and the exception text. -/
def backendUnavailableMsg (excType excText : String) : String :=
  "Theseus C++ extension cannot be loaded.\nThis is an installation issue (also check CUDA\nif CUDA support was compiled in)"
    ++ excType ++ ": " ++ excText

/-- The arguments reset passes to the SymbolicDecomposition constructor:
per-variable tangent sizes and the CSR block pattern of AtA, plus the device
string. -/
structure SymbolicDecompositionModel where
  paramSize : List Nat
  blockStructPtrs : List Nat
  blockStructInds : List Nat
  dev : String
deriving DecidableEq

/-- Concatenated sorted block column indices of the AtA block pattern (the
indices array of the CSR form passed to SymbolicDecomposition). -/
def blockAtAIndices (l : SparseLin) : List Nat :=
  ((List.range l.varStartCols.length).map (blockAtARow l)).flatten

/-- Row pointer array of the CSR form of the AtA block pattern. -/
def blockAtAIndPtr (l : SparseLin) : List Nat :=
  (List.range (l.varStartCols.length + 1)).map
    (fun i => lsum i (fun k => (blockAtARow l k).length))

/-- The attributes reset stores on self: the structure tensors A_rowPtr and
A_colInd and the symbolic decomposition. -/
structure ResetArtifacts where
  A_rowPtr : List Nat
  A_colInd : List Nat
  symbolicDecomposition : SymbolicDecompositionModel
deriving DecidableEq

/-- BaspachoSparseSolver.reset: first the cuda availability check, then the
extension import, then the structure tensors and the block pattern of AtA are
built and the symbolic decomposition is constructed. -/
def reset (host : Host) (lin : SparseLin) (dev : String) :
    Except SolverError ResetArtifacts :=
  if dev = "cuda" ∧ host.cudaAvailable = false then
    .error (.deviceUnavailable cudaUnavailableMsg)
  else
    match host.extlib with
    | .importError ty txt =>
        .error (.backendUnavailable (backendUnavailableMsg ty txt))
    | .loadable =>
        .ok { A_rowPtr := lin.rowPtr,
              A_colInd := lin.colInd,
              symbolicDecomposition :=
                { paramSize := lin.varDims,
                  blockStructPtrs := blockAtAIndPtr lin,
                  blockStructInds := blockAtAIndices lin,
                  dev := dev } }

/-- The linearization classes a caller may pass (SparseLinearization or the
dense one). -/
inductive LinearizationCls where
  | sparse
  | dense
deriving DecidableEq

/-- Message of the exception raised in the constructor for a non-sparse
linearization class: formatting the intended RuntimeError message touches
self.linearization before the base initializer assigned it, so what actually
escapes is this AttributeError. -/
def initErrMsg : String :=
  "BaspachoSparseSolver object has no attribute linearization"

/-- The state of a constructed BaspachoSparseSolver: the fields assigned by
the base initializer and the constructor body, plus the attributes of reset
when it has run (none when the structure had zero rows, so reset was
skipped). -/
structure BaspachoState where
  linearization : SparseLin
  linearizationIsSparse : Bool
  numSolverContexts : Nat
  resetArtifacts : Option ResetArtifacts
deriving DecidableEq

/-- BaspachoSparseSolver.__init__: a None linearization class defaults to
SparseLinearization; any other class raises before the base initializer
runs; otherwise the base state is built and reset runs exactly when the
structure has a non-zero number of rows. -/
def initSolver (host : Host) (lin : SparseLin) (linearizationCls : Option LinearizationCls)
    (numSolverContexts : Nat) (dev : String) : Except SolverError BaspachoState :=
  if linearizationCls.getD .sparse ≠ LinearizationCls.sparse then
    .error (.attributeError initErrMsg)
  else if lin.numRows ≠ 0 then
    (reset host lin dev).map
      (fun art =>
        { linearization := lin, linearizationIsSparse := true,
          numSolverContexts := numSolverContexts, resetArtifacts := some art })
  else
    .ok { linearization := lin, linearizationIsSparse := true,
          numSolverContexts := numSolverContexts, resetArtifacts := none }

/-- The damping pair handed to the solve function, as computed by
BaspachoSparseSolver.solve: None damping gives no pair; ellipsoidal damping
gives (damping, damping_eps); plain damping gives (0, damping). -/
def damping_alpha_beta (damping : Option ℚ) (ellipsoidalDamping : Bool)
    (dampingEps : ℚ) : Option (ℚ × ℚ) :=
  match damping with
  | none => none
  | some d => if ellipsoidalDamping then some (d, dampingEps) else some (0, d)

/-- Record of the arguments BaspachoSparseSolver.solve dispatches to
BaspachoSolveFunction.apply. -/
structure SolveCall where
  A_val : List ℚ
  b : List ℚ
  structRowPtr : List Nat
  structColInd : List Nat
  A_rowPtr : List Nat
  A_colInd : List Nat
  symbolicDecomposition : SymbolicDecompositionModel
  dampingAlphaBeta : Option (ℚ × ℚ)
deriving DecidableEq

/-- BaspachoSparseSolver.solve: after the isinstance check on the
linearization, the call is dispatched with the current linearization values
and structure together with the cached A_rowPtr, A_colInd and symbolic
decomposition stored by the last reset; no staleness check of any kind is
performed. -/
def solve (st : BaspachoState) (damping : Option ℚ) (ellipsoidalDamping : Bool)
    (dampingEps : ℚ) : Except SolverError SolveCall :=
  if st.linearizationIsSparse = false then
    .error (.runtimeError "CholmodSparseSolver only works with theseus.optimizer.SparseLinearization.")
  else
    match st.resetArtifacts with
    | none => .error (.attributeError "BaspachoSparseSolver object has no attribute A_rowPtr")
    | some art =>
        .ok { A_val := st.linearization.A_val,
              b := st.linearization.b,
              structRowPtr := st.linearization.rowPtr,
              structColInd := st.linearization.colInd,
              A_rowPtr := art.A_rowPtr,
              A_colInd := art.A_colInd,
              symbolicDecomposition := art.symbolicDecomposition,
              dampingAlphaBeta := damping_alpha_beta damping ellipsoidalDamping dampingEps }

/-- Modelled from the spec: the backend solve function
(BaspachoSolveFunction, outside the excerpt) applies a damping pair
(alpha, beta) to a diagonal entry of the normal equations by adding alpha
scaled by the per-variable norm plus the constant beta; with no pair the
diagonal is untouched. -/
def dampedDiagonal (pair : Option (ℚ × ℚ)) (diag varNorm : ℚ) : ℚ :=
  match pair with
  | none => diag
  | some (a, b) => diag + a * varNorm + b

/-- A one-residual, one-variable linearization with a stored entry. -/
def linA : SparseLin := ⟨[0, 1], [0], 1, 1, [0], [1], [5], [7]⟩

/-- The same shape as linA but with the entry removed: a different sparsity
pattern. -/
def linB : SparseLin := ⟨[0, 0], [], 1, 1, [0], [1], [], [3]⟩

/-- A linearization whose structure has zero rows. -/
def linEmpty : SparseLin := ⟨[0], [], 0, 0, [], [], [], []⟩

/-- Host with cuda and a loadable extension. -/
def hostOk : Host := ⟨true, .loadable⟩

/-- Host without cuda but with a loadable extension. -/
def hostNoCuda : Host := ⟨false, .loadable⟩

/-- Host without cuda whose extension import raises. -/
def hostNoCudaBroken : Host :=
  ⟨false, .importError ("ModuleNotFoundError") ("No module named theseus.extlib")⟩

/-- Host with cuda whose extension import raises. -/
def hostCudaBroken : Host :=
  ⟨true, .importError ("ImportError") ("libbaspacho missing")⟩

/-- Whether an Except value is a success. -/
def exceptIsOk {ε α : Type} : Except ε α → Bool
  | .ok _ => true
  | .error _ => false

/-- Whether a reset outcome is the backend-unavailable error. -/
def errIsBackendUnavailable : Except SolverError ResetArtifacts → Bool
  | .error (.backendUnavailable _) => true
  | _ => false

lemma solve_ok (st : BaspachoState) (hs : st.linearizationIsSparse = true)
    (art : ResetArtifacts) (ha : st.resetArtifacts = some art)
    (damping : Option ℚ) (e : Bool) (eps : ℚ) :
    solve st damping e eps =
      .ok { A_val := st.linearization.A_val,
            b := st.linearization.b,
            structRowPtr := st.linearization.rowPtr,
            structColInd := st.linearization.colInd,
            A_rowPtr := art.A_rowPtr,
            A_colInd := art.A_colInd,
            symbolicDecomposition := art.symbolicDecomposition,
            dampingAlphaBeta := damping_alpha_beta damping e eps } := by
  unfold solve
  rw [if_neg (by simp [hs]), ha]

/-- C2: solve maps its damping arguments per call: None damping passes no
pair (and the modelled backend leaves the diagonal untouched); ellipsoidal
damping passes the pair of damping and damping_eps (the backend adds damping
scaled by the per-variable norm plus the floor damping_eps); plain damping
passes the pair of zero and damping (the backend adds the constant damping to
the diagonal). -/
theorem C2_damping_contract (st : BaspachoState) (hs : st.linearizationIsSparse = true)
    (art : ResetArtifacts) (ha : st.resetArtifacts = some art)
    (d dampingEps diag varNorm : ℚ) :
    (∃ call, solve st none true dampingEps = .ok call ∧
      call.dampingAlphaBeta = none ∧
      dampedDiagonal call.dampingAlphaBeta diag varNorm = diag) ∧
    (∃ call, solve st (some d) true dampingEps = .ok call ∧
      call.dampingAlphaBeta = some (d, dampingEps) ∧
      dampedDiagonal call.dampingAlphaBeta diag varNorm =
        diag + d * varNorm + dampingEps) ∧
    (∃ call, solve st (some d) false dampingEps = .ok call ∧
      call.dampingAlphaBeta = some (0, d) ∧
      dampedDiagonal call.dampingAlphaBeta diag varNorm = diag + d) := by
  refine ⟨⟨_, solve_ok st hs art ha none true dampingEps, rfl, rfl⟩,
    ⟨_, solve_ok st hs art ha (some d) true dampingEps, rfl, rfl⟩,
    ⟨_, solve_ok st hs art ha (some d) false dampingEps, rfl, ?_⟩⟩
  show diag + 0 * varNorm + d = diag + d
  ring

/-- The artifacts reset computes for linA on the cpu device. -/
def artA : ResetArtifacts :=
  { A_rowPtr := [0, 1], A_colInd := [0],
    symbolicDecomposition :=
      { paramSize := [1], blockStructPtrs := [0, 1], blockStructInds := [0],
        dev := "cpu" } }

/-- Solver state with a current reset: artifacts matching linA. -/
def stSolid : BaspachoState := ⟨linA, true, 1, some artA⟩

/-- C2 witness: the damping contract at a concrete solver state. -/
theorem C2_witness :
    (∃ call, solve stSolid none true (1 / 2) = .ok call ∧
      call.dampingAlphaBeta = none ∧
      dampedDiagonal call.dampingAlphaBeta 2 5 = 2) ∧
    (∃ call, solve stSolid (some (3 / 2)) true (1 / 2) = .ok call ∧
      call.dampingAlphaBeta = some (3 / 2, 1 / 2) ∧
      dampedDiagonal call.dampingAlphaBeta 2 5 = 2 + (3 / 2) * 5 + 1 / 2) ∧
    (∃ call, solve stSolid (some (3 / 2)) false (1 / 2) = .ok call ∧
      call.dampingAlphaBeta = some (0, 3 / 2) ∧
      dampedDiagonal call.dampingAlphaBeta 2 5 = 2 + 3 / 2) :=
  C2_damping_contract stSolid rfl artA rfl (3 / 2) (1 / 2) 2 5

/-- C3 counterexample: construction with dev cuda on a host without cuda
succeeds without any error when the linearization structure has zero rows,
because the constructor only calls reset when num_rows is non-zero. -/
theorem C3_counterexample :
    linEmpty.numRows = 0 ∧
    initSolver hostNoCuda linEmpty none 1 ("cuda") =
      .ok { linearization := linEmpty, linearizationIsSparse := true,
            numSolverContexts := 1, resetArtifacts := none } :=
  ⟨rfl, rfl⟩

/-- C3 amended: every reset that requests dev cuda on a host where cuda is
unavailable fails fast with the device-unavailable error (for every
linearization, with no artifacts produced), and so does every construction
whose linearization structure has a non-zero number of rows; a construction
with a zero-row structure skips reset and does not fail. -/
theorem C3_device_unavailable (host : Host) (lin : SparseLin) (dev : String)
    (hdev : dev = "cuda") (hcuda : host.cudaAvailable = false) :
    reset host lin dev = .error (.deviceUnavailable cudaUnavailableMsg) ∧
    (lin.numRows ≠ 0 →
      initSolver host lin none 1 dev =
        .error (.deviceUnavailable cudaUnavailableMsg)) := by
  subst hdev
  have hr : reset host lin ("cuda") =
      .error (.deviceUnavailable cudaUnavailableMsg) := by
    unfold reset
    rw [if_pos ⟨rfl, hcuda⟩]
  refine ⟨hr, fun hn => ?_⟩
  unfold initSolver
  rw [if_neg (by simp), if_pos hn, hr]
  rfl

/-- C3 witness: the amended statement at a concrete host, linearization and
device. -/
theorem C3_witness :
    reset hostNoCuda linA ("cuda") =
      .error (.deviceUnavailable cudaUnavailableMsg) ∧
    (linA.numRows ≠ 0 →
      initSolver hostNoCuda linA none 1 ("cuda") =
        .error (.deviceUnavailable cudaUnavailableMsg)) :=
  C3_device_unavailable hostNoCuda linA ("cuda") rfl rfl

/-- C4 counterexample: on a host where the extension cannot be imported and
where cuda was requested but is unavailable, reset raises the device error,
not the backend error: the device check precedes the import attempt. -/
theorem C4_counterexample :
    hostNoCudaBroken.extlib =
      .importError ("ModuleNotFoundError") ("No module named theseus.extlib") ∧
    reset hostNoCudaBroken linA ("cuda") =
      .error (.deviceUnavailable cudaUnavailableMsg) ∧
    errIsBackendUnavailable (reset hostNoCudaBroken linA ("cuda")) = false :=
  ⟨rfl, rfl, rfl⟩

/-- C4 amended: whenever the extension cannot be imported and the device
check passes (it is not the case that dev is cuda while cuda is unavailable),
reset fails with the backend-unavailable error whose message is the fixed
installation notice followed by the exception type name and text, and no
symbolic decomposition is produced; a failing device check preempts with the
device error instead. -/
theorem C4_backend_unavailable (host : Host) (lin : SparseLin) (dev : String)
    (ty txt : String) (hext : host.extlib = .importError ty txt)
    (hdev : ¬(dev = "cuda" ∧ host.cudaAvailable = false)) :
    reset host lin dev =
      .error (.backendUnavailable (backendUnavailableMsg ty txt)) ∧
    backendUnavailableMsg ty txt =
      "Theseus C++ extension cannot be loaded.\nThis is an installation issue (also check CUDA\nif CUDA support was compiled in)"
        ++ ty ++ ": " ++ txt := by
  refine ⟨?_, rfl⟩
  unfold reset
  rw [if_neg hdev, hext]

/-- C4 witness: the amended statement at a concrete host with a broken
extension and a passing device check. -/
theorem C4_witness :
    reset hostCudaBroken linA ("cpu") =
      .error (.backendUnavailable
        (backendUnavailableMsg ("ImportError") ("libbaspacho missing"))) ∧
    backendUnavailableMsg ("ImportError") ("libbaspacho missing") =
      "Theseus C++ extension cannot be loaded.\nThis is an installation issue (also check CUDA\nif CUDA support was compiled in)"
        ++ "ImportError" ++ ": " ++ "libbaspacho missing" :=
  C4_backend_unavailable hostCudaBroken linA ("cpu") ("ImportError")
    ("libbaspacho missing") rfl (by decide)

/-- Solver state whose cached artifacts were computed for linA while the
current linearization is linB: a stale symbolic decomposition. -/
def staleState : BaspachoState := ⟨linB, true, 1, some artA⟩

/-- C5 counterexample: artA is exactly what reset computed for linA; after
the structure changed to linB without reset being re-run, solve succeeds and
dispatches the numeric solve with the stale cached data instead of rejecting
with any error. -/
theorem C5_counterexample :
    reset hostOk linA ("cpu") = .ok artA ∧
    linB.rowPtr ≠ linA.rowPtr ∧
    exceptIsOk (solve staleState none true 0) = true :=
  ⟨rfl, by decide, rfl⟩

/-- C5 amended: solve performs no staleness detection: for every state whose
linearization passes the isinstance check and which holds cached reset
artifacts, solve dispatches the numeric solve with the cached structure
tensors and symbolic decomposition, whether or not they match the current
structure; the stale-structure error is never raised. -/
theorem C5_no_stale_detection (st : BaspachoState)
    (hs : st.linearizationIsSparse = true)
    (art : ResetArtifacts) (ha : st.resetArtifacts = some art)
    (damping : Option ℚ) (e : Bool) (eps : ℚ) :
    solve st damping e eps =
      .ok { A_val := st.linearization.A_val,
            b := st.linearization.b,
            structRowPtr := st.linearization.rowPtr,
            structColInd := st.linearization.colInd,
            A_rowPtr := art.A_rowPtr,
            A_colInd := art.A_colInd,
            symbolicDecomposition := art.symbolicDecomposition,
            dampingAlphaBeta := damping_alpha_beta damping e eps } :=
  solve_ok st hs art ha damping e eps

/-- C5 witness: the amended statement at the concrete stale state. -/
theorem C5_witness :
    solve staleState none true 0 =
      .ok { A_val := staleState.linearization.A_val,
            b := staleState.linearization.b,
            structRowPtr := staleState.linearization.rowPtr,
            structColInd := staleState.linearization.colInd,
            A_rowPtr := artA.A_rowPtr,
            A_colInd := artA.A_colInd,
            symbolicDecomposition := artA.symbolicDecomposition,
            dampingAlphaBeta := damping_alpha_beta none true 0 } :=
  C5_no_stale_detection staleState rfl artA rfl none true 0

/-- C10: for every linearization class other than SparseLinearization (None
defaults to SparseLinearization) the constructor raises before the base
initializer runs, whatever the host, linearization and device, so no solver
state is ever produced with a non-sparse linearization class. -/
theorem C10_init_rejects_non_sparse (host : Host) (lin : SparseLin)
    (cls : LinearizationCls) (hc : cls ≠ LinearizationCls.sparse)
    (n : Nat) (dev : String) :
    initSolver host lin (some cls) n dev = .error (.attributeError initErrMsg) := by
  unfold initSolver
  rw [if_pos (by simpa using hc)]

/-- C10 witness: the dense linearization class is rejected at concrete
arguments. -/
theorem C10_witness :
    initSolver hostOk linA (some LinearizationCls.dense) 1 ("cpu") =
      .error (.attributeError initErrMsg) :=
  C10_init_rejects_non_sparse hostOk linA LinearizationCls.dense (by decide) 1 ("cpu")

/-- Modelled from the spec: the forward-kinematics collaborator
(differentiable_robot_model, an external dependency) as consumed by
UrdfRobotModel: joint limits (only their count matters), link names, and the
per-link forward kinematics returning a position and an xyzw quaternion. -/
structure DrmModel where
  jointLimits : List (ℚ × ℚ)
  linkNames : List String
  computeForwardKinematics : List ℚ → String → List ℚ × List ℚ

/-- A joint-state input: a raw tensor, a theseus Vector (whose data field is
the raw tensor), or any other Python object carrying a shape (rejected by
the type dispatch). -/
inductive RobotModelInput where
  | tensor (shape : List Nat) (data : List ℚ)
  | vector (shape : List Nat) (data : List ℚ)
  | other (shape : List Nat) (data : List ℚ)
deriving DecidableEq

/-- The shape attribute of a joint-state input. -/
def RobotModelInput.shape : RobotModelInput → List Nat
  | .tensor s _ => s
  | .vector s _ => s
  | .other s _ => s

/-- The raw data handed to the drm model (for a Vector, its data field). -/
def RobotModelInput.data : RobotModelInput → List ℚ
  | .tensor _ d => d
  | .vector _ d => d
  | .other _ d => d

/-- Failures of forward_kinematics: the shape assert, and the explicit
rejection of unknown input types. -/
inductive KinError where
  | assertionError
  | invalidInputType
deriving DecidableEq

/-- A theseus LieGroup value as produced by the kinematics layer: an SE3
constructed from an x_y_z_quaternion buffer, or a plain Vector. -/
inductive LieGroupVal where
  | se3FromXYZQuat (xyzq : List ℚ)
  | vectorVal (data : List ℚ)
deriving DecidableEq

/-- Sum of squares of a list: the squared Euclidean norm. -/
def sumSq (l : List ℚ) : ℚ := (l.map (fun x => x * x)).sum

/-- The xyzw to wxyz reorder performed on drm quaternions. -/
def reorderQuat (q : List ℚ) : List ℚ := q.drop 3 ++ q.take 3

/-- UrdfRobotModel._postprocess_quaternion: reorder xyzw to wxyz, then divide
by the Euclidean norm of the reordered quaternion.  The norm itself (a real
square root, not representable over the rationals) enters as the host
function sq applied to the squared norm. -/
def postprocess_quaternion (sq : ℚ → ℚ) (quat : List ℚ) : List ℚ :=
  (reorderQuat quat).map (fun q => q / sq (sumSq (reorderQuat quat)))

/-- Python dict assignment on an association list: replace the value at an
existing key in place, otherwise append the new pair at the end. -/
def dictInsert {α : Type} (d : List (String × α)) (k : String) (v : α) :
    List (String × α) :=
  match d with
  | [] => [(k, v)]
  | (k1, v1) :: rest =>
      if k1 = k then (k, v) :: rest else (k1, v1) :: dictInsert rest k v

/-- Python dict lookup on an association list. -/
def dictLookup {α : Type} (d : List (String × α)) (k : String) : Option α :=
  match d with
  | [] => none
  | (k1, v) :: rest => if k1 = k then some v else dictLookup rest k

/-- The pose stored for one link: SE3 built from the drm position
concatenated with the postprocessed quaternion. -/
def linkPose (sq : ℚ → ℚ) (m : DrmModel) (d : List ℚ) (name : String) :
    LieGroupVal :=
  .se3FromXYZQuat ((m.computeForwardKinematics d name).1 ++
    postprocess_quaternion sq (m.computeForwardKinematics d name).2)

/-- UrdfRobotModel.forward_kinematics: asserts that the last shape entry
equals the number of joints, accepts raw tensors and theseus Vectors (taking
the data field of the latter), rejects any other input type, and fills a
dict with one pose per link name of the model. -/
def forward_kinematics (sq : ℚ → ℚ) (m : DrmModel) (js : RobotModelInput) :
    Except KinError (List (String × LieGroupVal)) :=
  if js.shape.getLast? = some m.jointLimits.length then
    match js with
    | .tensor _ d =>
        .ok (m.linkNames.foldl
          (fun acc name => dictInsert acc name (linkPose sq m d name)) [])
    | .vector _ d =>
        .ok (m.linkNames.foldl
          (fun acc name => dictInsert acc name (linkPose sq m d name)) [])
    | .other _ _ => .error .invalidInputType
  else
    .error .assertionError

lemma dictLookup_dictInsert {α : Type} (d : List (String × α)) (k q : String)
    (v : α) :
    dictLookup (dictInsert d k v) q = if k = q then some v else dictLookup d q := by
  induction d with
  | nil => simp [dictInsert, dictLookup]
  | cons p rest ih =>
    obtain ⟨k1, v1⟩ := p
    by_cases h1 : k1 = k
    · subst h1
      by_cases h2 : k1 = q <;> simp [dictInsert, dictLookup, h2]
    · by_cases h2 : k1 = q
      · subst h2
        have hk : ¬k = k1 := fun h => h1 h.symm
        simp [dictInsert, dictLookup, h1, hk]
      · simp [dictInsert, dictLookup, h1, h2, ih]

lemma dictLookup_foldl {α : Type} (f : String → α) (names : List String)
    (acc : List (String × α)) (q : String) :
    dictLookup (names.foldl (fun a n => dictInsert a n (f n)) acc) q =
      if q ∈ names then some (f q) else dictLookup acc q := by
  induction names generalizing acc with
  | nil => simp
  | cons n rest ih =>
    rw [List.foldl_cons, ih]
    by_cases hq : q ∈ rest
    · simp [hq]
    · by_cases hn : n = q
      · subst hn
        simp [hq, dictLookup_dictInsert]
      · simp [hq, hn, dictLookup_dictInsert, List.mem_cons, Ne.symm hn]

lemma sumSq_cons (x : ℚ) (l : List ℚ) : sumSq (x :: l) = x * x + sumSq l := by
  simp [sumSq]

lemma sumSq_map_div (l : List ℚ) (n : ℚ) :
    sumSq (l.map (fun q => q / n)) = sumSq l / (n * n) := by
  induction l with
  | nil => simp [sumSq]
  | cons x xs ih =>
    rw [List.map_cons, sumSq_cons, sumSq_cons, ih, div_mul_div_comm, add_div]

/-- C8: for every valid joint-angle input (a raw tensor or a Vector whose
last shape entry equals the number of joints of the model),
forward_kinematics succeeds and returns a dict with exactly one entry per
link name of the model, every entry being an SE3 pose built for that link. -/
theorem C8_forward_kinematics_links (sq : ℚ → ℚ) (m : DrmModel)
    (js : RobotModelInput)
    (hshape : js.shape.getLast? = some m.jointLimits.length)
    (hty : (∃ s d, js = .tensor s d) ∨ (∃ s d, js = .vector s d)) :
    ∃ res, forward_kinematics sq m js = .ok res ∧
      (∀ name, dictLookup res name =
        if name ∈ m.linkNames then some (linkPose sq m js.data name) else none) ∧
      (∀ name, name ∈ m.linkNames →
        ∃ xyzq, dictLookup res name = some (.se3FromXYZQuat xyzq)) := by
  obtain ⟨s, d, rfl⟩ | ⟨s, d, rfl⟩ := hty
  · refine ⟨m.linkNames.foldl
      (fun acc name => dictInsert acc name (linkPose sq m d name)) [], ?_, ?_, ?_⟩
    · unfold forward_kinematics
      rw [if_pos hshape]
    · intro name
      rw [dictLookup_foldl]
      simp [dictLookup, RobotModelInput.data]
    · intro name hmem
      rw [dictLookup_foldl, if_pos hmem]
      exact ⟨_, rfl⟩
  · refine ⟨m.linkNames.foldl
      (fun acc name => dictInsert acc name (linkPose sq m d name)) [], ?_, ?_, ?_⟩
    · unfold forward_kinematics
      rw [if_pos hshape]
    · intro name
      rw [dictLookup_foldl]
      simp [dictLookup, RobotModelInput.data]
    · intro name hmem
      rw [dictLookup_foldl, if_pos hmem]
      exact ⟨_, rfl⟩

/-- A concrete two-link drm model with constant forward kinematics returning
the identity quaternion in xyzw order. -/
def drm0 : DrmModel :=
  { jointLimits := [(0, 1)],
    linkNames := ["base", "tool"],
    computeForwardKinematics := fun _ _ => ([0, 0, 0], [0, 0, 0, 1]) }

/-- A concrete valid joint-state tensor for drm0. -/
def js0 : RobotModelInput := .tensor [1] [0]

/-- A host square root that is exact at 1. -/
def sq0 : ℚ → ℚ := fun _ => 1

/-- C8 witness: the statement at the concrete model and input. -/
theorem C8_witness :
    ∃ res, forward_kinematics sq0 drm0 js0 = .ok res ∧
      (∀ name, dictLookup res name =
        if name ∈ drm0.linkNames then some (linkPose sq0 drm0 js0.data name)
        else none) ∧
      (∀ name, name ∈ drm0.linkNames →
        ∃ xyzq, dictLookup res name = some (.se3FromXYZQuat xyzq)) :=
  C8_forward_kinematics_links sq0 drm0 js0 (by decide) (Or.inl ⟨[1], [0], rfl⟩)

/-- C9: every pose returned by forward_kinematics is the SE3 built from the
drm position concatenated with the quaternion reordered from xyzw to wxyz
and divided by its Euclidean norm; whenever the host square root meets its
contract at that quaternion (its square is the squared norm and it is
non-zero), the stored quaternion has unit squared norm, hence unit Euclidean
norm. -/
theorem C9_unit_quaternion (sq : ℚ → ℚ) (m : DrmModel) (js : RobotModelInput)
    (res : List (String × LieGroupVal)) (name : String) (pose : LieGroupVal)
    (hres : forward_kinematics sq m js = .ok res)
    (hlook : dictLookup res name = some pose)
    (hsq : sq (sumSq (reorderQuat (m.computeForwardKinematics js.data name).2)) *
        sq (sumSq (reorderQuat (m.computeForwardKinematics js.data name).2)) =
        sumSq (reorderQuat (m.computeForwardKinematics js.data name).2))
    (hnz : sq (sumSq (reorderQuat (m.computeForwardKinematics js.data name).2)) ≠ 0) :
    pose = .se3FromXYZQuat ((m.computeForwardKinematics js.data name).1 ++
        postprocess_quaternion sq (m.computeForwardKinematics js.data name).2) ∧
    sumSq (postprocess_quaternion sq (m.computeForwardKinematics js.data name).2) = 1 := by
  have hpose : pose = linkPose sq m js.data name := by
    cases js with
    | tensor s d =>
      unfold forward_kinematics at hres
      split at hres
      · injection hres with h
        subst h
        rw [dictLookup_foldl] at hlook
        split at hlook
        · exact (Option.some.inj hlook).symm
        · simp [dictLookup] at hlook
      · exact absurd hres (by simp)
    | vector s d =>
      unfold forward_kinematics at hres
      split at hres
      · injection hres with h
        subst h
        rw [dictLookup_foldl] at hlook
        split at hlook
        · exact (Option.some.inj hlook).symm
        · simp [dictLookup] at hlook
      · exact absurd hres (by simp)
    | other s d =>
      unfold forward_kinematics at hres
      split at hres <;> simp_all
  refine ⟨by rw [hpose]; rfl, ?_⟩
  unfold postprocess_quaternion
  rw [sumSq_map_div, hsq]
  have hs0 : sumSq (reorderQuat (m.computeForwardKinematics js.data name).2) ≠ 0 := by
    rw [← hsq]
    exact mul_ne_zero hnz hnz
  exact div_self hs0

/-- The pose forward_kinematics stores for both links of drm0. -/
def pose0 : LieGroupVal := .se3FromXYZQuat [0, 0, 0, 1, 0, 0, 0]

/-- C9 witness: the statement at the concrete model, input and link. -/
theorem C9_witness :
    pose0 = .se3FromXYZQuat ((drm0.computeForwardKinematics js0.data ("base")).1 ++
        postprocess_quaternion sq0 (drm0.computeForwardKinematics js0.data ("base")).2) ∧
    sumSq (postprocess_quaternion sq0 (drm0.computeForwardKinematics js0.data ("base")).2) = 1 :=
  C9_unit_quaternion sq0 drm0 js0 [("base", pose0), ("tool", pose0)] ("base") pose0
    (by unfold js0 forward_kinematics
        rw [if_pos (by decide)]
        simp [drm0, sq0, linkPose, postprocess_quaternion, reorderQuat, sumSq,
          dictInsert, pose0, List.foldl_cons, List.foldl_nil])
    rfl
    (by simp [sq0, sumSq, reorderQuat, drm0, js0])
    (by simp [sq0])

/-- Vector addition of flattened buffers. -/
def vadd (a b : List ℚ) : List ℚ := List.zipWith (· + ·) a b

/-- Scalar multiple of a flattened buffer. -/
def vscale (c : ℚ) (a : List ℚ) : List ℚ := a.map (fun x => c * x)

/-- Dot product of two flattened buffers. -/
def dotp (a b : List ℚ) : ℚ := (List.zipWith (· * ·) a b).sum

/-- Row-major product of an m-by-n and an n-by-k flattened matrix. -/
def matMul (m n k : Nat) (A B : List ℚ) : List ℚ :=
  ((List.range m).map (fun i => (List.range k).map (fun j =>
    ((List.range n).map (fun l => A.getD (i * n + l) 0 * B.getD (l * k + j) 0)).sum))).flatten

/-- Transpose of an m-by-n flattened matrix. -/
def matT (m n : Nat) (A : List ℚ) : List ℚ :=
  ((List.range n).map (fun j => (List.range m).map (fun i => A.getD (i * n + j) 0))).flatten

/-- Flattened n-by-n identity matrix. -/
def idMat (n : Nat) : List ℚ :=
  ((List.range n).map (fun i => (List.range n).map (fun j =>
    if i = j then (1 : ℚ) else 0))).flatten

/-- Flattened zero buffer of length n. -/
def zeros (n : Nat) : List ℚ := (List.range n).map (fun _ => 0)

/-- Modelled from the spec: the so3 hat map, the skew matrix of a width-3
tangent vector (the functional backend so3_impl is outside the excerpt). -/
def so3_hat (t : List ℚ) : List ℚ :=
  [0, -t.getD 2 0, t.getD 1 0,
   t.getD 2 0, 0, -t.getD 0 0,
   -t.getD 1 0, t.getD 0 0, 0]

/-- Modelled from the spec: the so3 vee map, inverse of hat on skew
matrices. -/
def so3_vee (m : List ℚ) : List ℚ := [m.getD 7 0, m.getD 2 0, m.getD 3 0]

/-- Modelled from the spec: the so3 exponential by the Rodrigues formula;
the transcendental coefficients sinc and versine-over-square are realised as
truncated Taylor series in the squared angle, since the development is over
the rationals. -/
def so3_exp (t : List ℚ) : List ℚ :=
  let th2 := dotp t t
  let a : ℚ := 1 - th2 / 6 + th2 * th2 / 120
  let b : ℚ := 1 / 2 - th2 / 24 + th2 * th2 / 720
  let k := so3_hat t
  vadd (idMat 3) (vadd (vscale a k) (vscale b (matMul 3 3 3 k k)))

/-- Modelled from the spec: the so3 logarithm from the antisymmetric part of
the rotation, with the angle-dependent coefficient as a truncated series in
3 minus the trace. -/
def so3_log (g : List ℚ) : List ℚ :=
  let s := 3 - (g.getD 0 0 + g.getD 4 0 + g.getD 8 0)
  let c : ℚ := 1 / 2 + s / 12 + s * s * 3 / 160
  vscale c (so3_vee (vadd g (vscale (-1) (matT 3 3 g))))

/-- Modelled from the spec: lift of an so3 tangent into the ambient matrix
dimensionality. -/
def so3_lift (t : List ℚ) : List ℚ := so3_hat t

/-- Modelled from the spec: projection of an ambient 3-by-3 perturbation to
the tangent coordinates through the antisymmetric part. -/
def so3_project (m : List ℚ) : List ℚ :=
  so3_vee (vscale (1 / 2) (vadd m (vscale (-1) (matT 3 3 m))))

/-- so3 group composition: 3-by-3 matrix product. -/
def so3_compose (a b : List ℚ) : List ℚ := matMul 3 3 3 a b

/-- so3 inverse: the transpose of the rotation. -/
def so3_inverse (a : List ℚ) : List ℚ := matT 3 3 a

/-- so3 adjoint: the rotation matrix itself. -/
def so3_adjoint (a : List ℚ) : List ℚ := a

/-- so3 left action on a point: matrix-vector product. -/
def so3_left_act (a p : List ℚ) : List ℚ := matMul 3 3 1 a p

/-- Modelled from the spec: projection of an ambient perturbation at a back
to the tangent space at a. -/
def so3_left_project (a m : List ℚ) : List ℚ :=
  so3_project (matMul 3 3 3 (so3_inverse a) m)

/-- Modelled from the spec: the left Jacobian of the so3 exponential, with
truncated series coefficients. -/
def so3_exp_jac (t : List ℚ) : List ℚ :=
  let th2 := dotp t t
  let b : ℚ := 1 / 2 - th2 / 24 + th2 * th2 / 720
  let c : ℚ := 1 / 6 - th2 / 120 + th2 * th2 / 5040
  let k := so3_hat t
  vadd (idMat 3) (vadd (vscale b k) (vscale c (matMul 3 3 3 k k)))

/-- Modelled from the spec: the Jacobian of the so3 logarithm (inverse left
Jacobian at the logarithm), truncated. -/
def so3_log_jac (g : List ℚ) : List ℚ :=
  let k := so3_hat (so3_log g)
  vadd (idMat 3) (vadd (vscale (-(1 / 2)) k) (vscale (1 / 12) (matMul 3 3 3 k k)))

/-- so3 jexp: the list of Jacobians (one input) and the value. -/
def so3_jexp (t : List ℚ) : List (List ℚ) × List ℚ :=
  ([so3_exp_jac t], so3_exp t)

/-- so3 jlog: the list of Jacobians (one input) and the value. -/
def so3_jlog (g : List ℚ) : List (List ℚ) × List ℚ :=
  ([so3_log_jac g], so3_log g)

/-- so3 jcompose: Jacobians with respect to a then b (the adjoint of the
inverse of b, then the identity), and the composed value. -/
def so3_jcompose (a b : List ℚ) : List (List ℚ) × List ℚ :=
  ([so3_adjoint (so3_inverse b), idMat 3], so3_compose a b)

/-- so3 jinverse: minus the adjoint, and the inverse value. -/
def so3_jinverse (a : List ℚ) : List (List ℚ) × List ℚ :=
  ([vscale (-1) (so3_adjoint a)], so3_inverse a)

/-- The rotation block of a 3-by-4 se3 element. -/
def se3_rot (g : List ℚ) : List ℚ :=
  [g.getD 0 0, g.getD 1 0, g.getD 2 0,
   g.getD 4 0, g.getD 5 0, g.getD 6 0,
   g.getD 8 0, g.getD 9 0, g.getD 10 0]

/-- The translation column of a 3-by-4 se3 element. -/
def se3_trans (g : List ℚ) : List ℚ := [g.getD 3 0, g.getD 7 0, g.getD 11 0]

/-- Reassemble a rotation and a translation into a 3-by-4 se3 element. -/
def se3_assemble (r t : List ℚ) : List ℚ :=
  [r.getD 0 0, r.getD 1 0, r.getD 2 0, t.getD 0 0,
   r.getD 3 0, r.getD 4 0, r.getD 5 0, t.getD 1 0,
   r.getD 6 0, r.getD 7 0, r.getD 8 0, t.getD 2 0]

/-- se3 group composition on 3-by-4 elements. -/
def se3_compose (a b : List ℚ) : List ℚ :=
  se3_assemble (matMul 3 3 3 (se3_rot a) (se3_rot b))
    (vadd (matMul 3 3 1 (se3_rot a) (se3_trans b)) (se3_trans a))

/-- se3 inverse: transpose rotation and rotated negated translation. -/
def se3_inverse (a : List ℚ) : List ℚ :=
  se3_assemble (matT 3 3 (se3_rot a))
    (vscale (-1) (matMul 3 3 1 (matT 3 3 (se3_rot a)) (se3_trans a)))

/-- Modelled from the spec: the se3 hat map into 4-by-4 matrices; the
tangent convention is translation first then rotation. -/
def se3_hat (t : List ℚ) : List ℚ :=
  let k := so3_hat (t.drop 3)
  [k.getD 0 0, k.getD 1 0, k.getD 2 0, t.getD 0 0,
   k.getD 3 0, k.getD 4 0, k.getD 5 0, t.getD 1 0,
   k.getD 6 0, k.getD 7 0, k.getD 8 0, t.getD 2 0,
   0, 0, 0, 0]

/-- Modelled from the spec: the se3 vee map, inverse of se3 hat. -/
def se3_vee (m : List ℚ) : List ℚ :=
  [m.getD 3 0, m.getD 7 0, m.getD 11 0,
   m.getD 9 0, m.getD 2 0, m.getD 4 0]

/-- Modelled from the spec: the se3 exponential: so3 exponential of the
rotation part and the left-Jacobian matrix (truncated series) applied to the
translation part. -/
def se3_exp (t : List ℚ) : List ℚ :=
  let w := t.drop 3
  let th2 := dotp w w
  let b : ℚ := 1 / 2 - th2 / 24 + th2 * th2 / 720
  let c : ℚ := 1 / 6 - th2 / 120 + th2 * th2 / 5040
  let k := so3_hat w
  let vmat := vadd (idMat 3) (vadd (vscale b k) (vscale c (matMul 3 3 3 k k)))
  se3_assemble (so3_exp w) (matMul 3 3 1 vmat (t.take 3))

/-- Modelled from the spec: the se3 logarithm: so3 logarithm of the rotation
and the truncated inverse left Jacobian applied to the translation. -/
def se3_log (g : List ℚ) : List ℚ :=
  let w := so3_log (se3_rot g)
  let k := so3_hat w
  let vinv := vadd (idMat 3) (vadd (vscale (-(1 / 2)) k) (vscale (1 / 12) (matMul 3 3 3 k k)))
  matMul 3 3 1 vinv (se3_trans g) ++ w

/-- Assemble a 6-by-6 matrix from four 3-by-3 blocks. -/
def mat6FromBlocks (a b c d : List ℚ) : List ℚ :=
  ((List.range 6).map (fun i => (List.range 6).map (fun j =>
    if i < 3 then
      if j < 3 then a.getD (i * 3 + j) 0 else b.getD (i * 3 + (j - 3)) 0
    else
      if j < 3 then c.getD ((i - 3) * 3 + j) 0
      else d.getD ((i - 3) * 3 + (j - 3)) 0))).flatten

/-- se3 adjoint: the 6-by-6 block matrix of the rotation, the skew of the
translation times the rotation, zero, and the rotation. -/
def se3_adjoint (g : List ℚ) : List ℚ :=
  mat6FromBlocks (se3_rot g)
    (matMul 3 3 3 (so3_hat (se3_trans g)) (se3_rot g)) (zeros 9) (se3_rot g)

/-- Modelled from the spec: lift of an se3 tangent into the ambient 3-by-4
dimensionality. -/
def se3_lift (t : List ℚ) : List ℚ :=
  se3_assemble (so3_hat (t.drop 3)) (t.take 3)

/-- Modelled from the spec: projection of an ambient 3-by-4 perturbation to
the se3 tangent coordinates. -/
def se3_project (m : List ℚ) : List ℚ :=
  se3_trans m ++ so3_project (se3_rot m)

/-- se3 left action on a point: rotate then translate. -/
def se3_left_act (g p : List ℚ) : List ℚ :=
  vadd (matMul 3 3 1 (se3_rot g) p) (se3_trans g)

/-- Modelled from the spec: projection of an ambient perturbation at g back
to the tangent space at g. -/
def se3_left_project (g x : List ℚ) : List ℚ :=
  se3_project (se3_compose (se3_inverse g) x)

/-- The adjoint of an se3 tangent element (for the Jacobian series). -/
def se3_ad (t : List ℚ) : List ℚ :=
  mat6FromBlocks (so3_hat (t.drop 3)) (so3_hat (t.take 3)) (zeros 9)
    (so3_hat (t.drop 3))

/-- Modelled from the spec: the left Jacobian of the se3 exponential,
truncated series in the tangent adjoint. -/
def se3_exp_jac (t : List ℚ) : List ℚ :=
  let a := se3_ad t
  vadd (idMat 6) (vadd (vscale (1 / 2) a) (vscale (1 / 6) (matMul 6 6 6 a a)))

/-- Modelled from the spec: the Jacobian of the se3 logarithm, truncated. -/
def se3_log_jac (g : List ℚ) : List ℚ :=
  let a := se3_ad (se3_log g)
  vadd (idMat 6) (vadd (vscale (-(1 / 2)) a) (vscale (1 / 12) (matMul 6 6 6 a a)))

/-- se3 jexp: the list of Jacobians (one input) and the value. -/
def se3_jexp (t : List ℚ) : List (List ℚ) × List ℚ :=
  ([se3_exp_jac t], se3_exp t)

/-- se3 jlog: the list of Jacobians (one input) and the value. -/
def se3_jlog (g : List ℚ) : List (List ℚ) × List ℚ :=
  ([se3_log_jac g], se3_log g)

/-- se3 jcompose: Jacobians with respect to a then b, and the composed
value. -/
def se3_jcompose (a b : List ℚ) : List (List ℚ) × List ℚ :=
  ([se3_adjoint (se3_inverse b), idMat 6], se3_compose a b)

/-- se3 jinverse: minus the adjoint, and the inverse value. -/
def se3_jinverse (a : List ℚ) : List (List ℚ) × List ℚ :=
  ([vscale (-1) (se3_adjoint a)], se3_inverse a)

/-- The two group variants of the lie module. -/
inductive Variant where
  | SO3
  | SE3
deriving DecidableEq

/-- Modelled from the spec: a functional backend module (so3_impl or
se3_impl): the operator entry points the class-based layer dispatches to. -/
structure ImplModule where
  exp : List ℚ → List ℚ
  hat : List ℚ → List ℚ
  vee : List ℚ → List ℚ
  lift : List ℚ → List ℚ
  project : List ℚ → List ℚ
  compose : List ℚ → List ℚ → List ℚ
  left_act : List ℚ → List ℚ → List ℚ
  left_project : List ℚ → List ℚ → List ℚ
  log : List ℚ → List ℚ
  inverse : List ℚ → List ℚ
  adjoint : List ℚ → List ℚ
  jexp : List ℚ → List (List ℚ) × List ℚ
  jcompose : List ℚ → List ℚ → List (List ℚ) × List ℚ
  jlog : List ℚ → List (List ℚ) × List ℚ
  jinverse : List ℚ → List (List ℚ) × List ℚ

/-- The so3 functional backend. -/
def so3_impl : ImplModule :=
  { exp := so3_exp, hat := so3_hat, vee := so3_vee, lift := so3_lift,
    project := so3_project, compose := so3_compose, left_act := so3_left_act,
    left_project := so3_left_project, log := so3_log, inverse := so3_inverse,
    adjoint := so3_adjoint, jexp := so3_jexp, jcompose := so3_jcompose,
    jlog := so3_jlog, jinverse := so3_jinverse }

/-- The se3 functional backend. -/
def se3_impl : ImplModule :=
  { exp := se3_exp, hat := se3_hat, vee := se3_vee, lift := se3_lift,
    project := se3_project, compose := se3_compose, left_act := se3_left_act,
    left_project := se3_left_project, log := se3_log, inverse := se3_inverse,
    adjoint := se3_adjoint, jexp := se3_jexp, jcompose := se3_jcompose,
    jlog := se3_jlog, jinverse := se3_jinverse }

/-- The variant-to-backend dispatch table of the lie module (the dict from
SE3 to se3_impl and SO3 to so3_impl). -/
def getImpl : Variant → ImplModule
  | .SO3 => so3_impl
  | .SE3 => se3_impl

/-- A LieTensor: a raw buffer bound to a group variant tag. -/
structure LieTensor where
  _t : List ℚ
  ltype : Variant
deriving DecidableEq

/-- Modelled from the spec: the public class-based static operators take the
variant as explicit first argument and dispatch; exp wraps its group-valued
output as a LieTensor. -/
def lieExp (lt : Variant) (x : List ℚ) : LieTensor := ⟨(getImpl lt).exp x, lt⟩

/-- Modelled from the spec: the class-based hat, static with explicit
variant. -/
def lieHat (lt : Variant) (x : List ℚ) : List ℚ := (getImpl lt).hat x

/-- Modelled from the spec: the class-based vee, static with explicit
variant. -/
def lieVee (lt : Variant) (m : List ℚ) : List ℚ := (getImpl lt).vee m

/-- Modelled from the spec: the class-based lift, static with explicit
variant. -/
def lieLift (lt : Variant) (x : List ℚ) : List ℚ := (getImpl lt).lift x

/-- Modelled from the spec: the class-based project, static with explicit
variant. -/
def lieProject (lt : Variant) (m : List ℚ) : List ℚ := (getImpl lt).project m

/-- Modelled from the spec: the class-based compose dispatches on the
variant of its group operands and wraps the group result. -/
def lieCompose (a b : LieTensor) : LieTensor :=
  ⟨(getImpl a.ltype).compose a._t b._t, a.ltype⟩

/-- Modelled from the spec: the class-based left action. -/
def lieLeftAct (a : LieTensor) (p : List ℚ) : List ℚ :=
  (getImpl a.ltype).left_act a._t p

/-- Modelled from the spec: the class-based left projection. -/
def lieLeftProject (a : LieTensor) (x : List ℚ) : List ℚ :=
  (getImpl a.ltype).left_project a._t x

/-- Modelled from the spec: the class-based logarithm. -/
def lieLog (a : LieTensor) : List ℚ := (getImpl a.ltype).log a._t

/-- Modelled from the spec: the class-based inverse wraps the group
result. -/
def lieInv (a : LieTensor) : LieTensor := ⟨(getImpl a.ltype).inverse a._t, a.ltype⟩

/-- Modelled from the spec: the class-based adjoint. -/
def lieAdj (a : LieTensor) : List ℚ := (getImpl a.ltype).adjoint a._t

/-- A Python value returned by the jacobian-variant operators: a plain
tensor, a LieTensor, or a list of tensors. -/
inductive PyVal where
  | tens (t : List ℚ)
  | lieT (t : List ℚ) (v : Variant)
  | tensList (ts : List (List ℚ))
deriving DecidableEq

/-- Modelled from the spec and the test harness: jexp returns a pair whose
first element is the list of Jacobians and whose second element is the
resulting group value (the test unwraps the second element with the
LieTensor raw-buffer attribute when the output is a group). -/
def lieJexp (lt : Variant) (x : List ℚ) : PyVal × PyVal :=
  (.tensList ((getImpl lt).jexp x).1, .lieT ((getImpl lt).jexp x).2 lt)

/-- Modelled from the spec and the test harness: jcompose returns the
Jacobian list (with respect to a then b) first and the composed group value
second. -/
def lieJcompose (a b : LieTensor) : PyVal × PyVal :=
  (.tensList ((getImpl a.ltype).jcompose a._t b._t).1,
   .lieT ((getImpl a.ltype).jcompose a._t b._t).2 a.ltype)

/-- Modelled from the spec and the test harness: jlog returns the Jacobian
list first and the tangent value second (a plain tensor). -/
def lieJlog (a : LieTensor) : PyVal × PyVal :=
  (.tensList ((getImpl a.ltype).jlog a._t).1, .tens ((getImpl a.ltype).jlog a._t).2)

/-- Modelled from the spec and the test harness: jinv returns the Jacobian
list first and the inverse group value second. -/
def lieJinv (a : LieTensor) : PyVal × PyVal :=
  (.tensList ((getImpl a.ltype).jinverse a._t).1,
   .lieT ((getImpl a.ltype).jinverse a._t).2 a.ltype)

/-- C7: for each of the eleven public operators and both variants, the
class-based operator applied to LieTensor inputs produces the same output as
the variant-selected backend module applied to the raw tensors; the static
operators take the variant as explicit first argument. -/
theorem C7_class_dispatch_agrees (x y p : List ℚ) :
    ((lieExp Variant.SO3 x)._t = so3_impl.exp x) ∧
    ((lieExp Variant.SE3 x)._t = se3_impl.exp x) ∧
    (lieHat Variant.SO3 x = so3_impl.hat x) ∧
    (lieHat Variant.SE3 x = se3_impl.hat x) ∧
    (lieVee Variant.SO3 x = so3_impl.vee x) ∧
    (lieVee Variant.SE3 x = se3_impl.vee x) ∧
    (lieLift Variant.SO3 x = so3_impl.lift x) ∧
    (lieLift Variant.SE3 x = se3_impl.lift x) ∧
    (lieProject Variant.SO3 x = so3_impl.project x) ∧
    (lieProject Variant.SE3 x = se3_impl.project x) ∧
    ((lieCompose ⟨x, Variant.SO3⟩ ⟨y, Variant.SO3⟩)._t = so3_impl.compose x y) ∧
    ((lieCompose ⟨x, Variant.SE3⟩ ⟨y, Variant.SE3⟩)._t = se3_impl.compose x y) ∧
    (lieLeftAct ⟨x, Variant.SO3⟩ p = so3_impl.left_act x p) ∧
    (lieLeftAct ⟨x, Variant.SE3⟩ p = se3_impl.left_act x p) ∧
    (lieLeftProject ⟨x, Variant.SO3⟩ y = so3_impl.left_project x y) ∧
    (lieLeftProject ⟨x, Variant.SE3⟩ y = se3_impl.left_project x y) ∧
    (lieLog ⟨x, Variant.SO3⟩ = so3_impl.log x) ∧
    (lieLog ⟨x, Variant.SE3⟩ = se3_impl.log x) ∧
    ((lieInv ⟨x, Variant.SO3⟩)._t = so3_impl.inverse x) ∧
    ((lieInv ⟨x, Variant.SE3⟩)._t = se3_impl.inverse x) ∧
    (lieAdj ⟨x, Variant.SO3⟩ = so3_impl.adjoint x) ∧
    (lieAdj ⟨x, Variant.SE3⟩ = se3_impl.adjoint x) :=
  ⟨rfl, rfl, rfl, rfl, rfl, rfl, rfl, rfl, rfl, rfl, rfl,
   rfl, rfl, rfl, rfl, rfl, rfl, rfl, rfl, rfl, rfl, rfl⟩

/-- The zero so3 tangent. -/
def zt3 : List ℚ := [0, 0, 0]

/-- C6 counterexample: the first element of the pair returned by jexp is the
list of Jacobians, not the operation value: at the zero tangent it differs
from the wrapped group value, which sits in the second element. -/
theorem C6_counterexample :
    (lieJexp Variant.SO3 zt3).1 ≠ PyVal.lieT (so3_impl.exp zt3) Variant.SO3 ∧
    (lieJexp Variant.SO3 zt3).2 = PyVal.lieT (so3_impl.exp zt3) Variant.SO3 :=
  ⟨fun h => PyVal.noConfusion h, rfl⟩

/-- C6 amended: for exp, compose, log and inv on both variants, the
Jacobian-returning variant returns the pair (list-of-Jacobians, value): the
list of Jacobians with respect to each input first, in input order, and the
operation value second. -/
theorem C6_jacobian_pair (x y g : List ℚ) :
    lieJexp Variant.SO3 x =
      (.tensList [so3_exp_jac x], .lieT (so3_exp x) Variant.SO3) ∧
    lieJexp Variant.SE3 x =
      (.tensList [se3_exp_jac x], .lieT (se3_exp x) Variant.SE3) ∧
    lieJcompose ⟨x, Variant.SO3⟩ ⟨y, Variant.SO3⟩ =
      (.tensList [so3_adjoint (so3_inverse y), idMat 3],
       .lieT (so3_compose x y) Variant.SO3) ∧
    lieJcompose ⟨x, Variant.SE3⟩ ⟨y, Variant.SE3⟩ =
      (.tensList [se3_adjoint (se3_inverse y), idMat 6],
       .lieT (se3_compose x y) Variant.SE3) ∧
    lieJlog ⟨g, Variant.SO3⟩ = (.tensList [so3_log_jac g], .tens (so3_log g)) ∧
    lieJlog ⟨g, Variant.SE3⟩ = (.tensList [se3_log_jac g], .tens (se3_log g)) ∧
    lieJinv ⟨g, Variant.SO3⟩ =
      (.tensList [vscale (-1) (so3_adjoint g)], .lieT (so3_inverse g) Variant.SO3) ∧
    lieJinv ⟨g, Variant.SE3⟩ =
      (.tensList [vscale (-1) (se3_adjoint g)], .lieT (se3_inverse g) Variant.SE3) :=
  ⟨rfl, rfl, rfl, rfl, rfl, rfl, rfl, rfl⟩

end Theseus


